import Mathlib

/-!
A shallow embedding of `cpptypes` (`src/ctypes_wrapper/parse_cpp_exports.py` and the
root-level `parse_cpp_exports.py`).  Python strings are modelled as `List Char`,
the line-oriented file handle as a `List (List Char)` of its remaining lines, and
Python exceptions as `Except` values.  Loops are written with an explicit fuel
parameter; exhausting the fuel is a distinguished error, so an `.ok`/specific-error
result proves the corresponding Python loop terminates with that outcome.
-/

namespace Cpptypes

deriving instance DecidableEq for Except

/-- Characters accepted by Python's `str.isspace` that can occur in source text here. -/
def pyIsspace (c : Char) : Bool :=
  c = ' ' || c = '\t' || c = '\n' || c = '\r' || c = '\x0b' || c = '\x0c'

/-- The character list of a string literal (Python `str` model). -/
def sChars (s : String) : List Char := s.data

/-- The ASCII single-quote character used by the error messages. -/
def quoteChar : Char := Char.ofNat 39

/-- Python exceptions raised by the module.  `fuelExhausted` is no Python outcome: it
only signals that the modelling fuel ran out, so any other result is a faithful one. -/
inductive PErr where
  | unterminatedInput
  | malformedComment
  | imbalancedAngle
  | imbalancedParens
  | indexError
  | pointerSyntax
  | nameError
  | fuelExhausted
deriving DecidableEq

/-- Model of `str.lstrip()`. -/
def lstrip (x : List Char) : List Char := x.dropWhile pyIsspace

/-- Model of `str.rstrip()`. -/
def rstrip (x : List Char) : List Char := (x.reverse.dropWhile pyIsspace).reverse

/-- Shared body of the two star-stripping `while` loops of `CppType.create`: one
star has just been stripped and counted, so skip the whitespace the `lstrip` of the
next iteration would remove, count any further stars, and stop at the first other
character.  One structural pass equivalent to iterating
`pointers += 1; x = x[1:].lstrip()` while `x.startswith("*")`. -/
def skipSpacesThenStars : List Char → Nat → List Char × Nat
  | [], pointers => ([], pointers)
  | c :: rest, pointers =>
    if pyIsspace c then skipSpacesThenStars rest pointers
    else if c = '*' then skipSpacesThenStars rest (pointers + 1)
    else (c :: rest, pointers)

/-- The `while x and x.startswith("*"): pointers += 1; x = x[1:].lstrip()` loop of
`CppType.create`. -/
def stripLeadStars : List Char → Nat → List Char × Nat
  | '*' :: rest, pointers => skipSpacesThenStars rest (pointers + 1)
  | x, pointers => (x, pointers)

/-- The `while x and x.endswith("*"): right_pointers = True; pointers += 1;
x = x[:-1].rstrip()` loop of `CppType.create`: the same loop as `stripLeadStars`,
run on the reversed fragment (`endswith` is `startswith` of the reverse, and
`x[:-1].rstrip()` is the reverse of `lstrip` of the reversed tail), and it sets the
sticky `right_pointers` flag as soon as it strips one star. -/
def stripTrailStars (x : List Char) (pointers : Nat) (right : Bool) :
    List Char × Nat × Bool :=
  match x.reverse with
  | '*' :: rrest =>
    let r := skipSpacesThenStars rrest (pointers + 1)
    (r.1.reverse, r.2, true)
  | _ => (x, pointers, right)

/-- Parsed C++ type; fields as in the Python `CppType` class (strings as `List Char`,
the `tags` set as its first-occurrence deduplication). -/
structure CppType where
  full_type : List Char
  base_type : List Char
  pointer_level : Nat
  tags : List (List Char)
deriving DecidableEq

/-- Parsed argument; fields as in the Python `CppArgument` class. -/
structure CppArgument where
  name : List Char
  type : CppType
deriving DecidableEq

/-- Model of Python `set(tags)`: deduplicate, keeping first occurrences. -/
def pySet (xs : List (List Char)) : List (List Char) := xs.eraseDups

/-- The `for x in fragments` loop of `CppType.create`, carrying the `base_type`
accumulator, the `pointers` count and the sticky `right_pointers` flag. -/
def createGo : List (List Char) → List (List Char) → Nat → Bool →
    Except PErr (List (List Char) × Nat)
  | [], base_type, pointers, _ => .ok (base_type, pointers)
  | x :: rest, base_type, pointers, right_pointers =>
    let s1 := stripLeadStars x pointers
    let s2 := stripTrailStars s1.1 s1.2 right_pointers
    if s2.1 = [] ∨ s2.1 = sChars "const" then
      createGo rest base_type s2.2.1 s2.2.2
    else if s2.2.2 ∧ base_type ≠ [] then .error .pointerSyntax
    else createGo rest (base_type ++ [s2.1]) s2.2.1 s2.2.2

/-- `CppType.create(fragments, tags)`: classify whitespace-split fragments into a
type record, or raise the pointer-parsing `ValueError`. -/
def CppType.create (fragments : List (List Char)) (tags : List (List Char)) :
    Except PErr CppType := do
  let r ← createGo fragments [] 0 false
  .ok { full_type := List.intercalate (sChars " ") fragments,
        base_type := List.intercalate (sChars " ") r.1,
        pointer_level := r.2,
        tags := pySet tags }

/-- `CppArgument.create(name, fragments, tags)`. -/
def CppArgument.create (name : List Char) (fragments tags : List (List Char)) :
    Except PErr CppArgument := do
  let t ← CppType.create fragments tags
  .ok { name := name, type := t }

/-- The `ExportTraverser` cursor: `handle` holds the unread lines of the file
(`readline` at end of file is modelled by an empty `handle`), `line` the line most
recently read, `position` the index of the next unread character of `line`. -/
structure ExportTraverser where
  handle : List (List Char)
  line : List Char
  position : Nat
deriving DecidableEq

/-- `ExportTraverser.next()`: refill `line` from the handle when exhausted (raising
the unterminated-export `ValueError` at end of file), then return the character at
`position` and advance. -/
def ExportTraverser.next (g : ExportTraverser) : Except PErr (Char × ExportTraverser) :=
  if g.position = g.line.length then
    match g.handle with
    | [] => .error .unterminatedInput
    | l :: rest =>
      match l with
      | [] => .error .unterminatedInput
      | c :: _ => .ok (c, ⟨rest, l, 1⟩)
  else
    match g.line[g.position]? with
    | some c => .ok (c, { g with position := g.position + 1 })
    | none => .error .indexError

/-- `ExportTraverser.get()`: `self.line[self.position]`, an unguarded index into the
current line (an out-of-range index is Python's `IndexError`). -/
def ExportTraverser.get (g : ExportTraverser) : Except PErr Char :=
  match g.line[g.position]? with
  | some c => .ok c
  | none => .error .indexError

/-- `ExportTraverser.back()`: rewind one position. -/
def ExportTraverser.back (g : ExportTraverser) : ExportTraverser :=
  { g with position := g.position - 1 }

/-- The `while True: if grabber.next() == "\n": break` loop of `parse_comment`
(line-comment case). -/
def consumeLineComment : Nat → ExportTraverser → Except PErr ExportTraverser
  | 0, _ => .error .fuelExhausted
  | fuel + 1, g => do
    let r ← g.next
    if r.1 = '\n' then .ok r.2 else consumeLineComment fuel r.2

/-- The closing loop of `parse_comment` for a plain block comment: consume until a
`*` returned by one `next()` is followed by `/` from the very next `next()`. -/
def consumeBlockComment : Nat → ExportTraverser → Except PErr ExportTraverser
  | 0, _ => .error .fuelExhausted
  | fuel + 1, g => do
    let r ← g.next
    if r.1 = '*' then do
      let r2 ← r.2.next
      if r2.1 = '/' then .ok r2.2 else consumeBlockComment fuel r2.2
    else consumeBlockComment fuel r.2

/-- The tag-collecting loop of `parse_comment` for a `/**` comment at nesting level
zero: whitespace flushes `curtag` into `tags`; a `*` followed by `/` terminates,
otherwise the `*` joins `curtag` and the follower is pushed back. -/
def parseTagComment : Nat → ExportTraverser → List (List Char) → List Char →
    Except PErr (List (List Char) × ExportTraverser)
  | 0, _, _, _ => .error .fuelExhausted
  | fuel + 1, g, tags, curtag => do
    let r ← g.next
    if pyIsspace r.1 then
      if curtag ≠ [] then parseTagComment fuel r.2 (tags ++ [curtag]) []
      else parseTagComment fuel r.2 tags curtag
    else if r.1 = '*' then do
      let r2 ← r.2.next
      if r2.1 = '/' then
        .ok ((if curtag ≠ [] then tags ++ [curtag] else tags), r2.2)
      else parseTagComment fuel r2.2.back tags (curtag ++ ['*'])
    else parseTagComment fuel r.2 tags (curtag ++ [r.1])

/-- `parse_comment(grabber, tags, nested)`: dispatch on `grabber.get()` — `/` starts
a line comment, `*` a block comment (a tag comment when the following `next()` also
yields `*` and `nested` is false), anything else raises the malformed-comment
`ValueError`. -/
def parse_comment (fuel : Nat) (g : ExportTraverser) (tags : List (List Char))
    (nested : Bool) : Except PErr (List (List Char) × ExportTraverser) := do
  let x ← g.get
  if x = '/' then do
    let g2 ← consumeLineComment fuel g
    .ok (tags, g2)
  else if x = '*' then do
    let r ← g.next
    if r.1 = '*' ∧ nested = false then parseTagComment fuel r.2 tags []
    else do
      let g2 ← consumeBlockComment fuel r.2.back
      .ok (tags, g2)
  else .error .malformedComment

/-- Result of the first scanning loop of `parse_cpp_file`: the function name, the
completed return-type chunks, the collected tags and the cursor just past `(`. -/
structure PhaseAResult where
  funname : List Char
  chunks : List (List Char)
  tags : List (List Char)
  grabber : ExportTraverser
deriving DecidableEq

/-- Python `chunks.pop()`: last element and the rest, or `IndexError` on `[]`. -/
def listPop (chunks : List (List Char)) : Except PErr (List Char × List (List Char)) :=
  match chunks.getLast? with
  | none => .error .indexError
  | some last => .ok (last, chunks.dropLast)

/-- First scanning loop of `parse_cpp_file` ("pulling out the result type and name,
until the first parenthesis"), with state `(current, chunks, tags, angle_nesting,
curve_nesting)` exactly as in the Python loop body. -/
def parsePhaseA : Nat → ExportTraverser → List Char → List (List Char) →
    List (List Char) → Nat → Nat → Except PErr PhaseAResult
  | 0, _, _, _, _, _, _ => .error .fuelExhausted
  | fuel + 1, g, current, chunks, tags, angle, curve => do
    let r ← g.next
    let x := r.1
    let g := r.2
    if pyIsspace x then
      if current ≠ [] then parsePhaseA fuel g [] (chunks ++ [current]) tags angle curve
      else parsePhaseA fuel g current chunks tags angle curve
    else if x = '/' then do
      let r2 ← g.next
      let p := if (r2.1 = '/' ∨ r2.1 = '*') ∧ current ≠ [] then
                 (([] : List Char), chunks ++ [current])
               else (current, chunks)
      let rc ← parse_comment fuel r2.2 tags (curve != 0 || angle != 0)
      parsePhaseA fuel rc.2 p.1 p.2 rc.1 angle curve
    else if x = '<' then
      parsePhaseA fuel g (current ++ ['<']) chunks tags (angle + 1) curve
    else if x = '>' then
      if angle = 0 then .error .imbalancedAngle
      else parsePhaseA fuel g (current ++ ['>']) chunks tags (angle - 1) curve
    else if x = '(' then
      if curve = 0 ∧ angle = 0 then
        if current = [] then do
          let pr ← listPop chunks
          .ok ⟨pr.1, pr.2, tags, g⟩
        else .ok ⟨current, chunks, tags, g⟩
      else parsePhaseA fuel g (current ++ ['(']) chunks tags angle (curve + 1)
    else if x = ')' then
      if curve = 0 then .error .imbalancedParens
      else parsePhaseA fuel g (current ++ [')']) chunks tags angle (curve - 1)
    else parsePhaseA fuel g (current ++ [x]) chunks tags angle curve

/-- Second scanning loop of `parse_cpp_file` ("pulling out the argument names, until
the last (unnested) parenthesis").  Differences from phase A, as in the source:
nested whitespace and the comment-opening follower are appended to `current`, `(`
always nests, a top-level `,` or `)` finalizes an argument via `chunks.pop()`
fallback and `CppArgument.create`. -/
def parsePhaseB : Nat → ExportTraverser → List Char → List (List Char) →
    List (List Char) → List CppArgument → Nat → Nat →
    Except PErr (List CppArgument × ExportTraverser)
  | 0, _, _, _, _, _, _, _ => .error .fuelExhausted
  | fuel + 1, g, current, chunks, tags, all_args, angle, curve => do
    let r ← g.next
    let x := r.1
    let g := r.2
    if pyIsspace x then
      if curve != 0 || angle != 0 then
        parsePhaseB fuel g (current ++ [x]) chunks tags all_args angle curve
      else if current ≠ [] then
        parsePhaseB fuel g [] (chunks ++ [current]) tags all_args angle curve
      else parsePhaseB fuel g current chunks tags all_args angle curve
    else if x = '/' then do
      let r2 ← g.next
      let p := if r2.1 = '/' ∨ r2.1 = '*' then
                 if curve != 0 || angle != 0 then (current ++ [r2.1], chunks)
                 else if current ≠ [] then (([] : List Char), chunks ++ [current])
                 else (current, chunks)
               else (current, chunks)
      let rc ← parse_comment fuel r2.2 tags (curve != 0 || angle != 0)
      parsePhaseB fuel rc.2 p.1 p.2 rc.1 all_args angle curve
    else if x = '<' then
      parsePhaseB fuel g (current ++ ['<']) chunks tags all_args (angle + 1) curve
    else if x = '>' then
      if angle = 0 then .error .imbalancedAngle
      else parsePhaseB fuel g (current ++ ['>']) chunks tags all_args (angle - 1) curve
    else if x = '(' then
      parsePhaseB fuel g (current ++ ['(']) chunks tags all_args angle (curve + 1)
    else if x = ')' then
      if curve = 0 then
        if angle ≠ 0 then .error .imbalancedAngle
        else do
          let pr ← if current = [] then listPop chunks
                   else .ok (current, chunks)
          let arg ← CppArgument.create pr.1 pr.2 tags
          .ok (all_args ++ [arg], g)
      else parsePhaseB fuel g (current ++ [')']) chunks tags all_args angle (curve - 1)
    else if x = ',' then
      if curve != 0 || angle != 0 then
        parsePhaseB fuel g (current ++ [',']) chunks tags all_args angle curve
      else do
        let pr ← if current = [] then listPop chunks
                 else .ok (current, chunks)
        let arg ← CppArgument.create pr.1 pr.2 tags
        parsePhaseB fuel g [] [] [] (all_args ++ [arg]) angle curve
    else parsePhaseB fuel g (current ++ [x]) chunks tags all_args angle curve

/-- The module-level regex `^\s*//\s*\[\[export\]\]` applied with `re.match`:
optional leading whitespace, two slashes, optional whitespace, the literal
bracketed token. -/
def matchesExportRegex (l : List Char) : Bool :=
  match l.dropWhile pyIsspace with
  | '/' :: '/' :: rest => (sChars "[[export]]").isPrefixOf (rest.dropWhile pyIsspace)
  | _ => false

/-- The `all_functions` dict: insertion-ordered association list from function name
to (return type, argument list). -/
abbrev Registry := List (List Char × CppType × List CppArgument)

/-- Python dict assignment `all_functions[funname] = value`: replace the entry with
this key in place, or append a fresh one. -/
def registryInsert : Registry → List Char → CppType × List CppArgument → Registry
  | [], k, v => [(k, v)]
  | e :: rest, k, v =>
    if e.1 = k then (k, v) :: rest else e :: registryInsert rest k v

/-- Python dict lookup `all_functions[name]`, as an `Option`. -/
def registryLookup (reg : Registry) (k : List Char) : Option (CppType × List CppArgument) :=
  (reg.find? (fun e => decide (e.1 = k))).map (fun e => e.2)

/-- The keys of the registry, in order. -/
def registryKeys (reg : Registry) : List (List Char) := reg.map (fun e => e.1)

/-- `parse_cpp_file(path, all_functions)`, with the opened file's remaining lines in
place of the path: scan for marker lines; after each one run phase A, classify the
return type, run phase B, store the declaration, and resume the line loop from the
cursor's handle (the rest of the line holding the closing parenthesis — e.g. the
function body opener — is dropped, exactly as the Python `readline` loop drops it). -/
def parse_cpp_file : Nat → List (List Char) → Registry → Except PErr Registry
  | 0, _, _ => .error .fuelExhausted
  | fuel + 1, lines, all_functions =>
    match lines with
    | [] => .ok all_functions
    | line :: rest =>
      if matchesExportRegex line then do
        let ra ← parsePhaseA fuel ⟨rest, [], 0⟩ [] [] [] 0 0
        let restype ← CppType.create ra.chunks ra.tags
        let rb ← parsePhaseB fuel ra.grabber [] [] [] [] 0 0
        parse_cpp_file fuel rb.2.handle
          (registryInsert all_functions ra.funname (restype, rb.1))
      else parse_cpp_file fuel rest all_functions

/-- The module-scope name `srcdir` referenced by the packaged `parse_cpp_exports`:
it is bound nowhere, so evaluating it raises `NameError`. -/
def srcdirBinding : Option (List Char) := none

/-- `os.path.join(dir, p)` for a relative second component. -/
def osPathJoin (dir p : List Char) : List Char :=
  if dir = [] then p else dir ++ ['/'] ++ p

/-- The wrap applied by the `except` clause: `ValueError("failed to parse '<p>'")`. -/
def failedToParseMsg (p : List Char) : List Char :=
  sChars "failed to parse " ++ [quoteChar] ++ p ++ [quoteChar]

/-- The `for p in files` loop of the packaged `parse_cpp_exports`: each iteration
evaluates `os.path.join(srcdir, p)` — `srcdir` being unbound, this raises `NameError`
before `parse_cpp_file` can run — and the `except Exception` clause turns any failure
into the `failed to parse` `ValueError`.  `fsRead` maps a path to the lines of the
file there, abstracting the file system. -/
def parseCppExportsGo : Nat → List (List Char) → (List Char → List (List Char)) →
    Registry → Except (List Char) Registry
  | _, [], _, acc => .ok acc
  | fuel, p :: rest, fsRead, acc =>
    let attempt : Except PErr Registry :=
      match srcdirBinding with
      | none => .error .nameError
      | some d => parse_cpp_file fuel (fsRead (osPathJoin d p)) acc
    match attempt with
    | .error _ => .error (failedToParseMsg p)
    | .ok acc2 => parseCppExportsGo fuel rest fsRead acc2

/-- The packaged `parse_cpp_exports(files)` of `src/ctypes_wrapper/parse_cpp_exports.py`. -/
def parse_cpp_exports (fuel : Nat) (files : List (List Char))
    (fsRead : List Char → List (List Char)) : Except (List Char) Registry :=
  parseCppExportsGo fuel files fsRead []

/-- The `for p in os.listdir(srcdir)` loop of the root-level `parse_cpp_exports(srcdir)`
(the older top-level `parse_cpp_exports.py`): skip names not ending in `.cpp`, parse
each file, and wrap any failure as `ValueError("failed to parse '<p>'")` naming the
originating source.  The directory listing is abstracted as (name, lines) pairs. -/
def parseCppExportsDirGo : Nat → List (List Char × List (List Char)) → Registry →
    Except (List Char) Registry
  | _, [], acc => .ok acc
  | fuel, (p, content) :: rest, acc =>
    if (sChars ".cpp").isSuffixOf p then
      match parse_cpp_file fuel content acc with
      | .error _ => .error (failedToParseMsg p)
      | .ok acc2 => parseCppExportsDirGo fuel rest acc2
    else parseCppExportsDirGo fuel rest acc

/-- The root-level `parse_cpp_exports(srcdir)` applied to a directory listing. -/
def parse_cpp_exports_dir (fuel : Nat)
    (listing : List (List Char × List (List Char))) : Except (List Char) Registry :=
  parseCppExportsDirGo fuel listing []

/-- Whether an `Except` computation succeeded. -/
def exceptIsOk {ε α : Type} : Except ε α → Bool
  | .ok _ => true
  | .error _ => false

/-- Spec-side restatement of the section 4.4 failure condition, in the spec's own
words: walking the fragments in order (stripping leading stars, stripping trailing
stars with the sticky `trailingPointerSeen` flag, discarding empty or exactly-const
remainders), the classifier fails exactly when a surviving non-trivial remainder is
appended while `trailingPointerSeen` is set and the base-type accumulator already has
content.  Only the flag and a has-content bit are tracked, for comparison against
`createGo`. -/
def pointerClashSpec : List (List Char) → Nat → Bool → Bool → Bool
  | [], _, _, _ => false
  | x :: rest, pointers, right, hasBase =>
    let s1 := stripLeadStars x pointers
    let s2 := stripTrailStars s1.1 s1.2 right
    if s2.1 = [] ∨ s2.1 = sChars "const" then pointerClashSpec rest s2.2.1 s2.2.2 hasBase
    else if s2.2.2 && hasBase then true
    else pointerClashSpec rest s2.2.1 s2.2.2 true

/-- The export marker line used by the concrete sources below. -/
def markerLine : List Char := sChars "//[[export]]\n"

/-- The declaration of the repository's basic test (`test_parse_cpp_exports_basic`),
also quoted in the spec. -/
def c1Lines : List (List Char) :=
  [markerLine,
   sChars "int foobar(X x, const YYY y, const long double* z, char*** aaron, const char* const* becky) \x7b return 1 \x7d\n"]

/-- A marked declaration containing a line comment whose third character is a space. -/
def c3LineCommentLines : List (List Char) :=
  [markerLine, sChars "int foo// c\n", sChars "(int x) \x7b\n"]

/-- A marked declaration containing an ordinary block comment. -/
def c3BlockCommentLines : List (List Char) :=
  [markerLine, sChars "int foo/* c */ (int x) \x7b\n"]

/-- A marked declaration whose parameter list closes immediately. -/
def c5Lines : List (List Char) :=
  [markerLine, sChars "int foo() \x7b\n"]

/-- A declaration with spaces between the starred return type, the name and `(`. -/
def c6SpacedLines : List (List Char) :=
  [markerLine, sChars "int* foobar (X x) \x7b\n"]

/-- The same declaration with those spaces removed (as in the repository's own
whitespace test). -/
def c6GluedLines : List (List Char) :=
  [markerLine, sChars "int*foobar(X x) \x7b\n"]

/-- A marked declaration with a template argument list containing a comma. -/
def c7Lines : List (List Char) :=
  [markerLine, sChars "int foo(std::map<int, char**> z) \x7b\n"]

/-- Two marked declarations sharing the name `foo`, in processing order. -/
def c8Lines : List (List Char) :=
  [markerLine, sChars "int foo(int x) \x7b\n",
   markerLine, sChars "char foo(int y) \x7b\n"]

/-- A source that ends before the closing parenthesis of the argument list. -/
def c9Lines : List (List Char) :=
  [markerLine, sChars "int foo(int x"]

theorem except_bind_error {ε α β : Type} (e : ε) (f : α → Except ε β) :
    (Except.error e >>= f) = Except.error e := rfl

theorem except_bind_ok {ε α β : Type} (a : α) (f : α → Except ε β) :
    (Except.ok a >>= f) = f a := rfl

theorem drop_eq_cons_of_getElem? (l : List Char) (n : Nat) (c : Char)
    (h : l[n]? = some c) : l.drop n = c :: l.drop (n + 1) := by
  induction l generalizing n with
  | nil => simp at h
  | cons a t ih =>
    cases n with
    | zero => simp_all
    | succ m => simpa using ih m (by simpa using h)

/-- C1: the spec and the repository's own basic test assert that the marked
declaration of `c1Lines` parses successfully; the code instead raises the
pointer-parsing `ValueError` while classifying the fragments of the argument
`const long double* z`, because `long` already sits in the base-type accumulator
when the trailing star of `double*` sets the sticky flag. -/
theorem c1_basic_declaration_raises_pointer_error :
    parse_cpp_file 400 c1Lines [] = .error .pointerSyntax ∧
    CppType.create [sChars "const", sChars "long", sChars "double*"] [] =
      .error .pointerSyntax := by
  constructor <;> decide

/-- C2: after `next()` has returned a character, `get()` does not return that
character again — it returns the following, not-yet-read character (`'b'` after
reading `'a'` from the line `ab`), and it raises `IndexError` when the returned
character was the last one of the line. -/
theorem c2_get_returns_following_character :
    ExportTraverser.next ⟨[], sChars "ab", 0⟩ = .ok ('a', ⟨[], sChars "ab", 1⟩) ∧
    ExportTraverser.get ⟨[], sChars "ab", 1⟩ = .ok 'b' ∧
    ExportTraverser.next ⟨[], sChars "a", 0⟩ = .ok ('a', ⟨[], sChars "a", 1⟩) ∧
    ExportTraverser.get ⟨[], sChars "a", 1⟩ = .error .indexError := by
  refine ⟨by decide, by decide, by decide, by decide⟩

/-- C3: a `//` line comment inside a declaration is not consumed silently — the
comment scanner inspects the character after the second `/` (here a space) and
raises the malformed-comment error; likewise an ordinary `/*` block comment raises
it even though the character following the initial `/` is `*`. -/
theorem c3_comment_scanner_raises_malformed_comment :
    parse_cpp_file 300 c3LineCommentLines [] = .error .malformedComment ∧
    parse_cpp_file 300 c3BlockCommentLines [] = .error .malformedComment := by
  constructor <;> decide

/-- C5: a marked declaration whose parameter list closes immediately does not parse
to an empty argument sequence — the code pops from the empty chunk list and raises
`IndexError`. -/
theorem c5_zero_argument_declaration_raises_index_error :
    parse_cpp_file 300 c5Lines [] = .error .indexError := by
  decide

/-- C6: removing the whitespace around `*` and the function name changes the parsed
result — `int* foobar (X x)` yields the name `foobar` with return type `int*`, while
`int*foobar(X x)` yields the name `int*foobar` with an empty return type record. -/
theorem c6_star_spacing_changes_parse :
    parse_cpp_file 300 c6SpacedLines [] =
      .ok [(sChars "foobar", ⟨sChars "int*", sChars "int", 1, []⟩,
            [⟨sChars "x", ⟨sChars "X", sChars "X", 0, []⟩⟩])] ∧
    parse_cpp_file 300 c6GluedLines [] =
      .ok [(sChars "int*foobar", ⟨[], [], 0, []⟩,
            [⟨sChars "x", ⟨sChars "X", sChars "X", 0, []⟩⟩])] ∧
    parse_cpp_file 300 c6SpacedLines [] ≠ parse_cpp_file 300 c6GluedLines [] := by
  refine ⟨by decide, by decide, by decide⟩

/-- C7: an argument whose type nests a comma inside angle brackets parses as a single
argument named `z`; the base type keeps its internal spacing and the pointer level
is zero. -/
theorem c7_template_comma_single_argument :
    parse_cpp_file 300 c7Lines [] =
      .ok [(sChars "foo", ⟨sChars "int", sChars "int", 0, []⟩,
            [⟨sChars "z",
              ⟨sChars "std::map<int, char**>", sChars "std::map<int, char**>", 0, []⟩⟩])] := by
  decide

theorem pointerClashSpec_eq_not_isOk :
    ∀ (frags : List (List Char)) (base : List (List Char)) (p : Nat) (right : Bool),
      pointerClashSpec frags p right (!base.isEmpty) =
        !(exceptIsOk (createGo frags base p right)) := by
  intro frags
  induction frags with
  | nil => intro base p right; simp [pointerClashSpec, createGo, exceptIsOk]
  | cons x rest ih =>
    intro base p right
    simp only [pointerClashSpec, createGo]
    rcases hs : stripTrailStars (stripLeadStars x p).1 (stripLeadStars x p).2 right with
      ⟨x2, p2, r2⟩
    dsimp only
    by_cases h1 : x2 = [] ∨ x2 = sChars "const"
    · simp only [if_pos h1]
      exact ih base p2 r2
    · simp only [if_neg h1]
      cases base with
      | nil =>
        have hb : (!(List.isEmpty ([] : List (List Char)))) = false := by simp
        rw [hb]
        simp only [Bool.and_false, if_neg (Bool.false_ne_true)]
        have hcond : ¬(r2 = true ∧ ([] : List (List Char)) ≠ []) := by simp
        rw [if_neg hcond]
        have := ih [x2] p2 r2
        simpa using this
      | cons b bs =>
        have hb : (!(List.isEmpty (b :: bs))) = true := by simp
        rw [hb, Bool.and_true]
        cases hr : r2 with
        | true =>
          have hcond : (true = true ∧ (b :: bs : List (List Char)) ≠ []) := by simp
          rw [if_pos rfl, if_pos hcond]
          simp [exceptIsOk]
        | false =>
          have hcond : ¬(false = true ∧ (b :: bs : List (List Char)) ≠ []) := by simp
          rw [if_neg (by simp), if_neg hcond]
          have := ih ((b :: bs) ++ [x2]) p2 false
          simpa using this

theorem registryKeys_insert_mem :
    ∀ (reg : Registry) (k : List Char) (v : CppType × List CppArgument) (a : List Char),
      a ∈ registryKeys (registryInsert reg k v) → a ∈ registryKeys reg ∨ a = k := by
  intro reg k v
  induction reg with
  | nil =>
    intro a ha
    simp [registryInsert, registryKeys] at ha
    right; exact ha
  | cons e rest ih =>
    intro a ha
    by_cases he : e.1 = k
    · simp only [registryInsert, if_pos he, registryKeys, List.map_cons, List.mem_cons] at ha ⊢
      rcases ha with h | h
      · right; exact h
      · left; right; exact h
    · simp only [registryInsert, if_neg he, registryKeys, List.map_cons, List.mem_cons] at ha ⊢
      rcases ha with h | h
      · left; left; exact h
      · rcases ih a h with h2 | h2
        · left; right; exact h2
        · right; exact h2

theorem registryKeys_insert_nodup :
    ∀ (reg : Registry) (k : List Char) (v : CppType × List CppArgument),
      (registryKeys reg).Nodup → (registryKeys (registryInsert reg k v)).Nodup := by
  intro reg k v
  induction reg with
  | nil => intro _; simp [registryInsert, registryKeys]
  | cons e rest ih =>
    intro h
    simp only [registryKeys, List.map_cons, List.nodup_cons] at h
    by_cases he : e.1 = k
    · simp only [registryInsert, if_pos he, registryKeys, List.map_cons, List.nodup_cons]
      exact ⟨he ▸ h.1, h.2⟩
    · simp only [registryInsert, if_neg he, registryKeys, List.map_cons, List.nodup_cons]
      refine ⟨fun hmem => ?_, ih h.2⟩
      rcases registryKeys_insert_mem rest k v e.1 hmem with h2 | h2
      · exact h.1 h2
      · exact he h2

theorem registryLookup_insert :
    ∀ (reg : Registry) (k : List Char) (v : CppType × List CppArgument),
      registryLookup (registryInsert reg k v) k = some v := by
  intro reg k v
  induction reg with
  | nil => simp [registryInsert, registryLookup, List.find?]
  | cons e rest ih =>
    by_cases he : e.1 = k
    · simp [registryInsert, if_pos he, registryLookup, List.find?]
    · simp only [registryInsert, if_neg he, registryLookup]
      rw [List.find?_cons_of_neg _ (by simp [he])]
      exact ih

theorem parsePhaseB_eof_unterminated :
    ∀ (fuel : Nat) (ln : List Char) (pos : Nat) (current : List Char)
      (chunks tags : List (List Char)) (args : List CppArgument) (angle curve : Nat),
      pos ≤ ln.length →
      (∀ c ∈ ln.drop pos,
        c ≠ '/' ∧ c ≠ '<' ∧ c ≠ '>' ∧ c ≠ '(' ∧ c ≠ ')' ∧ c ≠ ',') →
      ln.length - pos < fuel →
      parsePhaseB fuel ⟨[], ln, pos⟩ current chunks tags args angle curve =
        .error .unterminatedInput := by
  intro fuel
  induction fuel with
  | zero =>
    intro ln pos _ _ _ _ _ _ _ _ hf
    exact absurd hf (Nat.not_lt_zero _)
  | succ fuel ih =>
    intro ln pos current chunks tags args angle curve hle hmem hf
    by_cases hp : pos = ln.length
    · simp [parsePhaseB, ExportTraverser.next, hp, except_bind_error]
    · have hlt : pos < ln.length := lt_of_le_of_ne hle hp
      have hget : ln[pos]? = some (ln[pos]) := List.getElem?_eq_getElem hlt
      have hdrop : ln.drop pos = (ln[pos]) :: ln.drop (pos + 1) :=
        drop_eq_cons_of_getElem? _ _ _ hget
      have hc := hmem (ln[pos]) (by rw [hdrop]; exact List.mem_cons_self _ _)
      have hnext : ExportTraverser.next ⟨[], ln, pos⟩ =
          .ok ((ln[pos]), ⟨[], ln, pos + 1⟩) := by
        simp [ExportTraverser.next, hp, hget]
      have hmem2 : ∀ c ∈ ln.drop (pos + 1),
          c ≠ '/' ∧ c ≠ '<' ∧ c ≠ '>' ∧ c ≠ '(' ∧ c ≠ ')' ∧ c ≠ ',' := by
        intro c hm
        exact hmem c (by rw [hdrop]; exact List.mem_cons_of_mem _ hm)
      have hf2 : ln.length - (pos + 1) < fuel := by omega
      simp only [parsePhaseB, hnext, except_bind_ok]
      obtain ⟨h1, h2, h3, h4, h5, h6⟩ := hc
      simp only [if_neg h1, if_neg h2, if_neg h3, if_neg h4, if_neg h5, if_neg h6]
      split_ifs <;> exact ih ln (pos + 1) _ _ _ _ _ _ hlt hmem2 hf2

/-- C4: the type classifier fails exactly when a surviving non-trivial remainder is
reached while the sticky trailing-pointer flag is set and the base-type accumulator
already has content (the spec-side scan `pointerClashSpec` states that condition
directly), and the fragment sequence `const`, `char*`, `const*` succeeds with base
type `char` and pointer level 2. -/
theorem c4_pointer_error_characterization :
    (∀ (fragments tags : List (List Char)),
        exceptIsOk (CppType.create fragments tags) = false ↔
          pointerClashSpec fragments 0 false false = true) ∧
    CppType.create [sChars "const", sChars "char*", sChars "const*"] [] =
      .ok ⟨sChars "const char* const*", sChars "char", 2, []⟩ := by
  constructor
  · intro fragments tags
    have h := pointerClashSpec_eq_not_isOk fragments [] 0 false
    have h0 : (!(List.isEmpty ([] : List (List Char)))) = false := by simp
    rw [h0] at h
    have h2 : exceptIsOk (CppType.create fragments tags) =
        exceptIsOk (createGo fragments [] 0 false) := by
      cases hc : createGo fragments [] 0 false <;>
        simp [CppType.create, hc, exceptIsOk, except_bind_ok, except_bind_error]
    rw [h2, h]
    cases exceptIsOk (createGo fragments [] 0 false) <;> simp
  · decide

/-- C8: the registry keeps at most one entry per name (inserting preserves key
nodup), an insert makes the inserted data the one found under its key (the later
declaration replaces the earlier), and parsing a source with two marked declarations
both named `foo` leaves exactly the second declaration's data under `foo`. -/
theorem c8_registry_at_most_one_entry_last_wins :
    (∀ (reg : Registry) (k : List Char) (v : CppType × List CppArgument),
        (registryKeys reg).Nodup → (registryKeys (registryInsert reg k v)).Nodup) ∧
    (∀ (reg : Registry) (k : List Char) (v : CppType × List CppArgument),
        registryLookup (registryInsert reg k v) k = some v) ∧
    parse_cpp_file 400 c8Lines [] =
      .ok [(sChars "foo", ⟨sChars "char", sChars "char", 0, []⟩,
            [⟨sChars "y", ⟨sChars "int", sChars "int", 0, []⟩⟩])] := by
  refine ⟨registryKeys_insert_nodup, registryLookup_insert, by decide⟩

/-- C8 witness: inserting under a fresh key into a concrete one-entry registry keeps
the keys nodup. -/
theorem c8_registry_at_most_one_entry_last_wins_witness :
    (registryKeys (registryInsert
        [(sChars "bar", ⟨sChars "int", sChars "int", 0, []⟩, [])]
        (sChars "foo") (⟨sChars "char", sChars "char", 0, []⟩, []))).Nodup :=
  c8_registry_at_most_one_entry_last_wins.1
    [(sChars "bar", ⟨sChars "int", sChars "int", 0, []⟩, [])]
    (sChars "foo") (⟨sChars "char", sChars "char", 0, []⟩, []) (by decide)

/-- C9: whenever the remaining input of the argument scanner holds no scanner
metacharacter and the stream ends (empty handle), the scan fails with the
unterminated-input error, for any accumulator state; concretely, the truncated
source `c9Lines` fails with `UnterminatedInput`, and running it through the
per-source loop surfaces the wrapped error naming the originating file. -/
theorem c9_truncated_source_unterminated :
    (∀ (fuel : Nat) (ln : List Char) (pos : Nat) (current : List Char)
        (chunks tags : List (List Char)) (args : List CppArgument) (angle curve : Nat),
        pos ≤ ln.length →
        (∀ c ∈ ln.drop pos,
          c ≠ '/' ∧ c ≠ '<' ∧ c ≠ '>' ∧ c ≠ '(' ∧ c ≠ ')' ∧ c ≠ ',') →
        ln.length - pos < fuel →
        parsePhaseB fuel ⟨[], ln, pos⟩ current chunks tags args angle curve =
          .error .unterminatedInput) ∧
    parse_cpp_file 300 c9Lines [] = .error .unterminatedInput ∧
    parse_cpp_exports_dir 300 [(sChars "bad.cpp", c9Lines)] =
      .error (failedToParseMsg (sChars "bad.cpp")) := by
  refine ⟨parsePhaseB_eof_unterminated, by decide, by decide⟩

/-- C9 witness: the general unterminated-input statement applied to the concrete
argument text `int x` with the stream ending after it. -/
theorem c9_truncated_source_unterminated_witness :
    parsePhaseB 20 ⟨[], sChars "int x", 0⟩ [] [] [] [] 0 0 =
      .error .unterminatedInput :=
  c9_truncated_source_unterminated.1 20 (sChars "int x") 0 [] [] [] [] 0 0
    (by decide) (by decide) (by decide)

/-- C10: the packaged `parse_cpp_exports` returns the empty mapping on the empty file
list and, for any non-empty list, fails on the first file with the wrapped
`failed to parse` error before any file content is consulted (the result does not
depend on `fsRead`), because `srcdir` is unbound. -/
theorem c10_unbound_srcdir_fails_every_nonempty_run :
    (∀ (fuel : Nat) (fsRead : List Char → List (List Char)),
        parse_cpp_exports fuel [] fsRead = .ok []) ∧
    (∀ (fuel : Nat) (p : List Char) (rest : List (List Char))
        (fsRead : List Char → List (List Char)),
        parse_cpp_exports fuel (p :: rest) fsRead = .error (failedToParseMsg p)) :=
  ⟨fun _ _ => rfl, fun _ _ _ _ => rfl⟩

end Cpptypes
